import Mathlib

/-!
Verification of the ObjectNameLookup benchmark harness
(`src/ObjectNameLookup/ObjectNameLookup.cpp`).

The C++ code is shallowly embedded: wide strings become `List Nat`
(UTF-16 code units), `NTSTATUS` values become `Nat` below `2 ^ 32`,
handles become `Nat` identifiers, timestamps become `Nat` nanoseconds and
the `double` arithmetic of the timer becomes exact rational arithmetic.
-/

namespace ObjectNameLookup

/-! ## Status checking (`NtException` / `Check`, lines 69–84)

`NT_ERROR(Status)` is the Windows SDK macro `((((ULONG)(Status)) >> 30) == 3)`.
`Check` throws an `NtException` carrying the status exactly when `NT_ERROR`
holds; we embed the throw as `Except.error status`.  -/

def NT_ERROR (status : Nat) : Bool :=
  status / 2 ^ 30 == 3

def Check (status : Nat) : Except Nat Unit :=
  if NT_ERROR status then Except.error status else Except.ok ()

/-! ## `ScopedHandle` (lines 96–123)

The raw `HANDLE` value is modelled as `Option Nat`, with `none` standing
for `nullptr`.  The move constructor copies the source's value and sets the
source to `nullptr`; the destructor calls `::CloseHandle(m_handle)`, which
releases an underlying object only when the value is non-null.  -/

structure ScopedHandle where
  m_handle : Option Nat
deriving DecidableEq, Repr

/-- `explicit ScopedHandle(HANDLE handle)` with a non-null raw value. -/
def ScopedHandle.acquire (v : Nat) : ScopedHandle :=
  ⟨some v⟩

/-- `ScopedHandle(ScopedHandle&& other)`: the result is
`(destination, source after the move)`. -/
def ScopedHandle.moveFrom (other : ScopedHandle) : ScopedHandle × ScopedHandle :=
  (⟨other.m_handle⟩, ⟨none⟩)

/-- Underlying values released by `~ScopedHandle` (`::CloseHandle(m_handle)`):
closing a null value releases no object. -/
def ScopedHandle.releasedOnDestroy (h : ScopedHandle) : List Nat :=
  match h.m_handle with
  | some v => [v]
  | none => []

/-- The sequence of handle objects that ever held a value when an acquired
handle is moved `n` times (as `std::vector` reallocation does): index `k`
is the `k`-th moved-from source, and the final element is the last owner. -/
def moveChain : Nat → ScopedHandle → List ScopedHandle
  | 0, h => [h]
  | n + 1, h =>
    let p := ScopedHandle.moveFrom h
    p.2 :: moveChain n p.1

/-! ## `Timer` (lines 125–138)

Timestamps are nanosecond counts of the monotonic
`high_resolution_clock`.  `duration_cast<microseconds>` truncates the
elapsed duration to whole microseconds (`Nat` division by `1000`), and the
`double` division by `iterations` is embedded as exact division in `ℚ`.  -/

def GetTime (start stop : Nat) (iterations : Nat) : ℚ :=
  (((stop - start) / 1000 : Nat) : ℚ) / (iterations : ℚ)

/-! ## Collision names (`MakeNullString` / `MakeCollisionName`, lines 217–227)

Wide strings are lists of UTF-16 code units; `L"A"` is the unit `65`.  -/

def MakeNullString (count : Nat) : List Nat :=
  List.replicate count 0

def MakeCollisionName (count : Nat) : List Nat :=
  MakeNullString count ++ [65]

/-- Length of the leading run of zero code units in a name. -/
def leadingZeros : List Nat → Nat
  | 0 :: rest => leadingZeros rest + 1
  | _ => 0

/-- The sequence of names the collision scenarios generate: for
`i = 0, …, count - 1` the name `MakeCollisionName (count - i)`
(`Test5` line 298, `Test6` line 316). -/
def collisionSeq (count : Nat) : List (List Nat) :=
  (List.range count).map fun i => MakeCollisionName (count - i)

/-! ## `atoi` and `GetArg` (lines 210–215, 395)

C's `atoi`: skip leading whitespace, read an optional sign, then consume
decimal digits; any other input (or no digits) yields `0`.  Overflow is
undefined behaviour in C and is not modelled.  -/

def isCSpace (c : Char) : Bool :=
  c = ' ' || c = '\t' || c = '\n' || c = '\r' || c = '\x0b' || c = '\x0c'

def digitsVal : List Char → Nat → Nat
  | c :: cs, acc => if c.isDigit then digitsVal cs (acc * 10 + (c.toNat - 48)) else acc
  | [], acc => acc

def atoiChars (cs : List Char) : Int :=
  match cs.dropWhile isCSpace with
  | '-' :: rest => -(digitsVal rest 0 : Int)
  | '+' :: rest => (digitsVal rest 0 : Int)
  | rest => (digitsVal rest 0 : Int)

def atoi (s : String) : Int :=
  atoiChars s.data

/-- `GetArg(args, index, def_value)`: positions past the end of the argument
list, and the literal token `"_"`, select the default; any other token is
parsed with `atoi`. -/
def GetArg (args : List String) (index : Nat) (def_value : Int) : Int :=
  if index < args.length && args.getD index "" != "_" then
    atoi (args.getD index "")
  else
    def_value

/-! ## `Test3` output lines (lines 249–266)

`Test3` loops `i` from `0` to `dir_count - 1`, creating one nested
directory per step, and prints the line `i + 1, RunTest …` exactly when
`i % 500 == 0`.  The measured time is an oracle parameter `time` because
it depends on the OS clock.  -/

def test3Lines (dir_count : Nat) (time : Nat → ℚ) : List (Nat × ℚ) :=
  (List.range dir_count).filterMap fun i =>
    if i % 500 = 0 then some (i + 1, time i) else none

/-! ## `Test6` (lines 310–326)

`Test6` generates `collision_count` names, inserts each as a directory
under the base directory, and prints one report `timer.GetTime(1)` — the
divisor is the literal constant `1`.  -/

structure Test6Run where
  names : List (List Nat)
  insertions : Nat
  reportDivisor : Nat
deriving Repr

def test6 (collision_count : Nat) : Test6Run :=
  let names := (List.range collision_count).map fun i =>
    MakeCollisionName (collision_count - i)
  { names := names
    insertions := names.length
    reportDivisor := 1 }

/-! ## `Test5` handle-lifetime trace (lines 289–308)

`Test5` creates a base directory, then for each `i < collision_count`
appends `CreateDirectory(MakeCollisionName(collision_count - i), …)` to the
vector `dirs`; when `i % 500 == 0` it runs `iterations` timed calls
`OpenDirectory(base_dir_name, base_dir.get())` whose returned
`ScopedHandle` is a discarded temporary, destroyed (handle closed) at the
end of that full-expression — i.e. immediately, mid-scenario.

We record the scenario as a trace of events over fresh handle identifiers:
`test5Body` holds everything that happens before the scenario's scope
ends, and `test5ScopeExit` the releases performed by the destructors of
`dirs` and `base_dir` at scope exit.  -/

inductive Origin where
  | createOp
  | openOp
deriving DecidableEq, Repr

inductive Event where
  | create (id : Nat) (origin : Origin)
  | release (id : Nat)
deriving DecidableEq, Repr

def Event.isRelease : Event → Bool
  | .release _ => true
  | _ => false

def Event.idOf : Event → Nat
  | .create id _ => id
  | .release id => id

/-- The timed inner loop of `Test5`: each of the `j` iterations opens the
directory and immediately destroys the temporary `ScopedHandle`. -/
def openEvents (nid : Nat) : Nat → List Event
  | 0 => []
  | j + 1 => Event.create nid .openOp :: Event.release nid :: openEvents (nid + 1) j

/-- The main loop of `Test5`, with `r` iterations remaining, current index
`i` and next fresh identifier `nid`; returns the event trace and the list
of identifiers retained in the `dirs` vector. -/
def test5Loop (iterations : Nat) : Nat → Nat → Nat → List Event × List Nat
  | 0, _, _ => ([], [])
  | r + 1, i, nid =>
    let opens := if i % 500 = 0 then openEvents (nid + 1) iterations else []
    let nid' := nid + 1 + (if i % 500 = 0 then iterations else 0)
    let rest := test5Loop iterations r (i + 1) nid'
    (Event.create nid .createOp :: (opens ++ rest.1), nid :: rest.2)

/-- Events of `Test5` before its scope ends (identifier `0` is `base_dir`). -/
def test5Body (collision_count iterations : Nat) : List Event :=
  Event.create 0 .createOp :: (test5Loop iterations collision_count 0 1).1

/-- Releases performed when `Test5`'s scope ends: the destructors of the
`dirs` vector's elements, then of `base_dir`. -/
def test5ScopeExit (collision_count iterations : Nat) : List Event :=
  ((test5Loop iterations collision_count 0 1).2).map Event.release ++
    [Event.release 0]

/-- The retention property claimed for scenarios: no handle created during
the scenario body is released before the scenario completes. -/
def noMidScenarioRelease (body : List Event) : Prop :=
  ∀ e ∈ body, e.isRelease = false

instance (body : List Event) : Decidable (noMidScenarioRelease body) := by
  unfold noMidScenarioRelease
  infer_instance

/-! ## `main` (lines 388–434)

`argv` is the full argument vector including the program name.  The
behaviour of a dispatched scenario is an oracle
`run : Int → List String → ScenarioOutcome` (it completes, or throws an
`NtException` with a 32-bit status).  `mainRun` returns the process exit
status and, when the top-level catch fires, the characters printed by
`printf("Error in program: %08X\n", ex.status())`.  -/

inductive ScenarioOutcome where
  | ok
  | throws (status : Nat)
deriving DecidableEq, Repr

def hexDigit (n : Nat) : Char :=
  if n < 10 then Char.ofNat (48 + n) else Char.ofNat (55 + n)

def hexChars : Nat → Nat → List Char
  | 0, _ => []
  | fuel + 1, n => hexChars fuel (n / 16) ++ [hexDigit (n % 16)]

/-- `printf("%08X", v)` for the 32-bit value of an `NTSTATUS`. -/
def printf08X (status : Nat) : List Char :=
  hexChars 8 (status % 2 ^ 32)

def mainRun (argv : List String) (run : Int → List String → ScenarioOutcome) :
    Nat × Option (List Char) :=
  match argv with
  | [] => (1, none)
  | [_] => (1, none)
  | _ :: a1 :: rest =>
    let test_no := atoi a1
    if 1 ≤ test_no ∧ test_no ≤ 8 then
      match run test_no rest with
      | .ok => (0, none)
      | .throws s => (0, some (printf08X s))
    else
      (1, none)

/-! ## Helper lemmas -/

theorem hexChars_length (fuel n : Nat) : (hexChars fuel n).length = fuel := by
  induction fuel generalizing n with
  | zero => rfl
  | succ f ih => simp [hexChars, ih]

theorem printf08X_length (status : Nat) : (printf08X status).length = 8 := by
  simp [printf08X, hexChars_length]

theorem leadingZeros_collision (n : Nat) :
    leadingZeros (MakeCollisionName n) = n := by
  induction n with
  | zero => rfl
  | succ m ih =>
    show leadingZeros (0 :: (MakeNullString m ++ [65])) = m + 1
    rw [leadingZeros]
    exact congrArg (· + 1) ih

theorem makeCollisionName_length (n : Nat) :
    (MakeCollisionName n).length = n + 1 := by
  simp [MakeCollisionName, MakeNullString]

/-! ## Claim theorems -/

/-- C3: `Check` raises a typed failure carrying the OS status exactly when
the 32-bit status is in the error range (`NT_ERROR`, severity bits `11`,
i.e. `status ≥ 0xC0000000`); on any non-error status it returns normally,
so there is never a retry path. -/
theorem check_raises_iff_error (s : Nat) (h : s < 2 ^ 32) :
    (Check s = Except.error s ↔ 0xC0000000 ≤ s) ∧
    (s < 0xC0000000 → Check s = Except.ok ()) := by
  have hcase : (NT_ERROR s = true) ↔ 0xC0000000 ≤ s := by
    unfold NT_ERROR
    rw [beq_iff_eq]
    omega
  constructor
  · constructor
    · intro hc
      by_contra hlt
      have hfalse : NT_ERROR s = false := by
        rw [Bool.eq_false_iff]
        intro htrue
        exact hlt (hcase.mp htrue)
      rw [Check, hfalse] at hc
      simp at hc
    · intro hge
      rw [Check, hcase.mpr hge]
      simp
  · intro hlt
    have hfalse : NT_ERROR s = false := by
      rw [Bool.eq_false_iff]
      intro htrue
      exact absurd (hcase.mp htrue) (Nat.not_le.mpr hlt)
    rw [Check, hfalse]
    simp

theorem check_raises_iff_error_witness :
    Check 0xC0000034 = Except.error 0xC0000034 ∧ Check 0x8000000B = Except.ok () :=
  ⟨(check_raises_iff_error 0xC0000034 (by norm_num)).1.mpr (by norm_num),
   (check_raises_iff_error 0x8000000B (by norm_num)).2 (by norm_num)⟩

/-- C6: for monotonic timestamps `t0 ≤ t1` and `iterations ≥ 1`,
`Timer::GetTime` returns the elapsed time expressed in (whole) microseconds
divided by `iterations`, and the value is non-negative. -/
theorem getTime_elapsed_per_iteration (t0 t1 iterations : Nat)
    (hmono : t0 ≤ t1) (hiter : 1 ≤ iterations) :
    GetTime t0 t1 iterations * (iterations : ℚ) = (((t1 - t0) / 1000 : Nat) : ℚ) ∧
    0 ≤ GetTime t0 t1 iterations := by
  have hne : (iterations : ℚ) ≠ 0 := by
    exact_mod_cast Nat.one_le_iff_ne_zero.mp hiter
  constructor
  · rw [GetTime, div_mul_cancel₀ _ hne]
  · rw [GetTime]
    positivity

theorem getTime_elapsed_per_iteration_witness :
    GetTime 0 5000 2 * (2 : ℚ) = ((5 : Nat) : ℚ) ∧ 0 ≤ GetTime 0 5000 2 :=
  (getTime_elapsed_per_iteration 0 5000 2 (by norm_num) (by norm_num))

/-- C10: `Timer::GetTime` truncates the elapsed interval to whole
microseconds (`duration_cast<microseconds>`) before dividing by
`iterations`, so a total elapsed time strictly under one microsecond
reports exactly `0` for every iteration count. -/
theorem getTime_truncates_to_whole_micros (t0 t1 iterations : Nat)
    (hiter : 1 ≤ iterations) :
    GetTime t0 t1 iterations = (((t1 - t0) / 1000 : Nat) : ℚ) / (iterations : ℚ) ∧
    (t1 - t0 < 1000 → GetTime t0 t1 iterations = 0) := by
  constructor
  · rfl
  · intro hlt
    rw [GetTime, Nat.div_eq_of_lt hlt]
    simp

theorem getTime_truncates_to_whole_micros_witness :
    GetTime 0 999 1000 = ((0 : Nat) : ℚ) / (1000 : ℚ) ∧ GetTime 0 999 1000 = 0 :=
  ⟨(getTime_truncates_to_whole_micros 0 999 1000 (by norm_num)).1,
   (getTime_truncates_to_whole_micros 0 999 1000 (by norm_num)).2 (by norm_num)⟩

/-- C7: scenario 3 with `dir_count = 10` prints exactly one sample line,
since only loop index `i = 0` satisfies `i % 500 == 0`; each printed line's
first field is `i + 1`, so the single line's first field is `1` (whatever
the measured time is). -/
theorem test3_dir_count_10_lines (time : Nat → ℚ) :
    test3Lines 10 time = [(1, time 0)] ∧
    (test3Lines 10 time).length = 1 ∧
    (test3Lines 10 time).map Prod.fst = [1] := by
  refine ⟨rfl, rfl, rfl⟩

/-- C8: scenario 6 with `collision_count = 0` generates no names and
performs no insertions, and for every `collision_count` its single timing
report divides the elapsed time by the literal constant `1`, so the
reported quotient is exactly the truncated elapsed microseconds and no
division by zero can occur. -/
theorem test6_zero_collisions_no_div_by_zero :
    (test6 0).names = [] ∧
    (test6 0).insertions = 0 ∧
    (∀ collision_count : Nat, (test6 collision_count).reportDivisor = 1) ∧
    (∀ collision_count t0 t1 : Nat,
      GetTime t0 t1 (test6 collision_count).reportDivisor =
        (((t1 - t0) / 1000 : Nat) : ℚ)) := by
  refine ⟨rfl, rfl, fun _ => rfl, fun c t0 t1 => ?_⟩
  show GetTime t0 t1 1 = _
  rw [GetTime]
  norm_num

/-- C9: `GetArg` returns the default when the position is past the end of
the argument list or the token at that position is the literal `"_"`, and
otherwise returns the `atoi` parse of that token. -/
theorem getArg_default_or_parse (args : List String) (index : Nat)
    (def_value : Int) :
    (args.length ≤ index → GetArg args index def_value = def_value) ∧
    (args.getD index "" = "_" → GetArg args index def_value = def_value) ∧
    (index < args.length → args.getD index "" ≠ "_" →
      GetArg args index def_value = atoi (args.getD index "")) := by
  refine ⟨?_, ?_, ?_⟩
  · intro hle
    rw [GetArg, if_neg]
    simp only [Bool.and_eq_true, decide_eq_true_eq, not_and]
    intro hlt
    exact absurd hlt (Nat.not_lt.mpr hle)
  · intro heq
    rw [GetArg, if_neg]
    simp only [Bool.and_eq_true, bne_iff_ne, not_and]
    intro _
    exact fun hne => hne heq
  · intro hlt hne
    rw [GetArg, if_pos]
    simp only [Bool.and_eq_true, decide_eq_true_eq, bne_iff_ne]
    exact ⟨hlt, hne⟩

theorem getArg_default_or_parse_witness :
    GetArg ["12", "_"] 2 7 = 7 ∧
    GetArg ["12", "_"] 1 7 = 7 ∧
    GetArg ["12", "_"] 0 7 = atoi "12" :=
  ⟨(getArg_default_or_parse ["12", "_"] 2 7).1 (by decide),
   (getArg_default_or_parse ["12", "_"] 1 7).2.1 (by decide),
   (getArg_default_or_parse ["12", "_"] 0 7).2.2 (by decide) (by decide)⟩

/-- C4: the process exit status is `0` on normal completion, `1` when the
scenario argument is missing or does not select a scenario in `1..8`, and
`0` — together with a printed 8-hex-digit status — when an
`NtException` propagates to the top-level catch; that failure path never
yields a nonzero exit status. -/
theorem main_exit_status (argv : List String)
    (run : Int → List String → ScenarioOutcome) :
    (argv.length ≤ 1 → mainRun argv run = (1, none)) ∧
    (∀ p a1 rest, argv = p :: a1 :: rest →
      ¬(1 ≤ atoi a1 ∧ atoi a1 ≤ 8) → mainRun argv run = (1, none)) ∧
    (∀ p a1 rest, argv = p :: a1 :: rest → (1 ≤ atoi a1 ∧ atoi a1 ≤ 8) →
      run (atoi a1) rest = ScenarioOutcome.ok → mainRun argv run = (0, none)) ∧
    (∀ p a1 rest s, argv = p :: a1 :: rest → (1 ≤ atoi a1 ∧ atoi a1 ≤ 8) →
      run (atoi a1) rest = ScenarioOutcome.throws s →
      mainRun argv run = (0, some (printf08X s)) ∧
        (printf08X s).length = 8) := by
  refine ⟨?_, ?_, ?_, ?_⟩
  · intro hle
    match argv, hle with
    | [], _ => rfl
    | [_], _ => rfl
  · intro p a1 rest heq hnot
    subst heq
    rw [mainRun, if_neg hnot]
  · intro p a1 rest heq hin hok
    subst heq
    rw [mainRun, if_pos hin, hok]
  · intro p a1 rest s heq hin hthrow
    subst heq
    rw [mainRun, if_pos hin, hthrow]
    exact ⟨rfl, printf08X_length s⟩

theorem main_exit_status_witness :
    mainRun ["prog"] (fun _ _ => ScenarioOutcome.ok) = (1, none) ∧
    mainRun ["prog", "9"] (fun _ _ => ScenarioOutcome.ok) = (1, none) ∧
    mainRun ["prog", "1"] (fun _ _ => ScenarioOutcome.ok) = (0, none) ∧
    (mainRun ["prog", "5"] (fun _ _ => ScenarioOutcome.throws 0xC0000034) =
        (0, some (printf08X 0xC0000034)) ∧
      (printf08X 0xC0000034).length = 8) :=
  ⟨(main_exit_status ["prog"] (fun _ _ => ScenarioOutcome.ok)).1 (by decide),
   (main_exit_status ["prog", "9"] (fun _ _ => ScenarioOutcome.ok)).2.1
     "prog" "9" [] rfl (by decide),
   (main_exit_status ["prog", "1"] (fun _ _ => ScenarioOutcome.ok)).2.2.1
     "prog" "1" [] rfl (by decide) rfl,
   (main_exit_status ["prog", "5"]
       (fun _ _ => ScenarioOutcome.throws 0xC0000034)).2.2.2
     "prog" "5" [] 0xC0000034 rfl (by decide) rfl⟩

theorem moveChain_releases (n : Nat) (h : ScopedHandle) :
    ((moveChain n h).map ScopedHandle.releasedOnDestroy).flatten =
      ScopedHandle.releasedOnDestroy h := by
  induction n generalizing h with
  | zero => simp [moveChain]
  | succ m ih =>
    show (ScopedHandle.releasedOnDestroy ⟨none⟩ ++
      ((moveChain m ⟨h.m_handle⟩).map ScopedHandle.releasedOnDestroy).flatten) = _
    rw [ih ⟨h.m_handle⟩]
    rfl

/-- C5: moving from a `ScopedHandle` transfers the raw value to the
destination and nulls the source; destroying a null handle releases no
underlying object; and however many times an acquired value is moved
between handles, the destructors of all handles that ever held it release
that value exactly once.  (Copy construction and copy assignment are
`= delete`d in the source, so moves are the only transfers modelled.) -/
theorem scopedHandle_move_single_release :
    (∀ h : ScopedHandle,
      (ScopedHandle.moveFrom h).1.m_handle = h.m_handle ∧
      (ScopedHandle.moveFrom h).2.m_handle = none) ∧
    ScopedHandle.releasedOnDestroy ⟨none⟩ = [] ∧
    (∀ n v : Nat,
      ((moveChain n (ScopedHandle.acquire v)).map
        ScopedHandle.releasedOnDestroy).flatten = [v]) := by
  refine ⟨fun h => ⟨rfl, rfl⟩, rfl, fun n v => ?_⟩
  rw [moveChain_releases]
  rfl

theorem collisionSeq_map_leadingZeros (count : Nat) :
    (collisionSeq count).map leadingZeros =
      (List.range count).map (fun i => count - i) := by
  rw [collisionSeq, List.map_map]
  refine List.map_congr_left fun i _ => ?_
  show leadingZeros (MakeCollisionName (count - i)) = count - i
  exact leadingZeros_collision (count - i)

/-- C1: for every requested `count ≥ 1`, the names
`MakeCollisionName (count - i)` for `i = 0, …, count - 1` (the order used
by the collision scenarios) have strictly decreasing leading-zero-run
lengths `count, count - 1, …, 1`; each name is its zero run followed by the
single character `A`; and all names in the sequence are pairwise
distinct. -/
theorem collision_names_decreasing_distinct (count : Nat) (hc : 1 ≤ count) :
    (collisionSeq count).map leadingZeros =
      (List.range count).map (fun i => count - i) ∧
    List.Pairwise (· > ·) ((collisionSeq count).map leadingZeros) ∧
    (∀ name ∈ collisionSeq count,
      1 ≤ leadingZeros name ∧ leadingZeros name ≤ count ∧
      name = List.replicate (leadingZeros name) 0 ++ [65]) ∧
    (collisionSeq count).Nodup := by
  refine ⟨collisionSeq_map_leadingZeros count, ?_, ?_, ?_⟩
  · rw [collisionSeq_map_leadingZeros count, List.pairwise_map]
    refine (List.pairwise_lt_range count).imp_of_mem ?_
    intro a b ha hb hab
    have hb' : b < count := List.mem_range.mp hb
    omega
  · intro name hname
    obtain ⟨i, hi, rfl⟩ := List.mem_map.mp hname
    have hi' : i < count := List.mem_range.mp hi
    rw [leadingZeros_collision]
    exact ⟨by omega, by omega, rfl⟩
  · rw [collisionSeq]
    refine (List.nodup_range count).map_on ?_
    intro i hi j hj hij
    have hi' : i < count := List.mem_range.mp hi
    have hj' : j < count := List.mem_range.mp hj
    have hlen := congrArg List.length hij
    rw [makeCollisionName_length, makeCollisionName_length] at hlen
    omega

theorem collision_names_decreasing_distinct_witness :
    (collisionSeq 3).map leadingZeros = [3, 2, 1] ∧
    List.Pairwise (· > ·) ((collisionSeq 3).map leadingZeros) ∧
    (collisionSeq 3).Nodup :=
  ⟨((collision_names_decreasing_distinct 3 (by decide)).1).trans (by decide),
   (collision_names_decreasing_distinct 3 (by decide)).2.1,
   (collision_names_decreasing_distinct 3 (by decide)).2.2.2⟩

/-! ### Lemmas about the `Test5` event trace -/

theorem openEvents_id_lb (j : Nat) :
    ∀ nid, ∀ e ∈ openEvents nid j, nid ≤ e.idOf := by
  induction j with
  | zero => intro nid e he; simp [openEvents] at he
  | succ m ih =>
    intro nid e he
    simp only [openEvents, List.mem_cons] at he
    rcases he with rfl | rfl | he
    · exact Nat.le_refl _
    · exact Nat.le_refl _
    · exact Nat.le_of_succ_le (ih (nid + 1) e he)

theorem openEvents_id_ub (j : Nat) :
    ∀ nid, ∀ e ∈ openEvents nid j, e.idOf < nid + j := by
  induction j with
  | zero => intro nid e he; simp [openEvents] at he
  | succ m ih =>
    intro nid e he
    simp only [openEvents, List.mem_cons] at he
    rcases he with rfl | rfl | he
    · show nid < nid + (m + 1); omega
    · show nid < nid + (m + 1); omega
    · have := ih (nid + 1) e he
      omega

theorem openEvents_create_origin (j : Nat) :
    ∀ nid id o, Event.create id o ∈ openEvents nid j → o = Origin.openOp := by
  induction j with
  | zero => intro nid id o h; simp [openEvents] at h
  | succ m ih =>
    intro nid id o h
    simp only [openEvents, List.mem_cons] at h
    rcases h with h | h | h
    · injection h with h1 h2
    · exact Event.noConfusion h
    · exact ih (nid + 1) id o h

theorem openEvents_release_create (j : Nat) :
    ∀ nid id, Event.release id ∈ openEvents nid j →
      Event.create id Origin.openOp ∈ openEvents nid j := by
  induction j with
  | zero => intro nid id h; simp [openEvents] at h
  | succ m ih =>
    intro nid id h
    simp only [openEvents, List.mem_cons] at h
    rcases h with h | h | h
    · exact Event.noConfusion h
    · injection h with h1
      subst h1
      rw [openEvents]
      exact List.mem_cons_self _ _
    · rw [openEvents]
      exact List.mem_cons_of_mem _ (List.mem_cons_of_mem _ (ih (nid + 1) id h))

theorem test5Loop_succ_pos (iterations r i nid : Nat) (hi : i % 500 = 0) :
    test5Loop iterations (r + 1) i nid =
      (Event.create nid .createOp ::
        (openEvents (nid + 1) iterations ++
          (test5Loop iterations r (i + 1) (nid + 1 + iterations)).1),
       nid :: (test5Loop iterations r (i + 1) (nid + 1 + iterations)).2) := by
  simp [test5Loop, hi]

theorem test5Loop_succ_neg (iterations r i nid : Nat) (hi : ¬i % 500 = 0) :
    test5Loop iterations (r + 1) i nid =
      (Event.create nid .createOp :: (test5Loop iterations r (i + 1) (nid + 1)).1,
       nid :: (test5Loop iterations r (i + 1) (nid + 1)).2) := by
  simp [test5Loop, hi]

theorem test5Loop_id_lb (iterations r : Nat) :
    ∀ i nid, ∀ e ∈ (test5Loop iterations r i nid).1, nid ≤ e.idOf := by
  induction r with
  | zero => intro i nid e he; simp [test5Loop] at he
  | succ m ih =>
    intro i nid e he
    by_cases hi : i % 500 = 0
    · rw [test5Loop_succ_pos iterations m i nid hi] at he
      simp only [List.mem_cons, List.mem_append] at he
      rcases he with rfl | he | he
      · exact Nat.le_refl _
      · have := openEvents_id_lb iterations (nid + 1) e he
        omega
      · have := ih (i + 1) (nid + 1 + iterations) e he
        omega
    · rw [test5Loop_succ_neg iterations m i nid hi] at he
      simp only [List.mem_cons] at he
      rcases he with rfl | he
      · exact Nat.le_refl _
      · have := ih (i + 1) (nid + 1) e he
        omega

theorem test5Loop_release_from_open (iterations r : Nat) :
    ∀ i nid id, Event.release id ∈ (test5Loop iterations r i nid).1 →
      Event.create id Origin.openOp ∈ (test5Loop iterations r i nid).1 := by
  induction r with
  | zero => intro i nid id h; simp [test5Loop] at h
  | succ m ih =>
    intro i nid id h
    by_cases hi : i % 500 = 0
    · rw [test5Loop_succ_pos iterations m i nid hi] at h ⊢
      simp only [List.mem_cons, List.mem_append] at h ⊢
      rcases h with h | h | h
      · exact Event.noConfusion h
      · exact Or.inr (Or.inl (openEvents_release_create iterations (nid + 1) id h))
      · exact Or.inr (Or.inr (ih (i + 1) (nid + 1 + iterations) id h))
    · rw [test5Loop_succ_neg iterations m i nid hi] at h ⊢
      simp only [List.mem_cons] at h ⊢
      rcases h with h | h
      · exact Event.noConfusion h
      · exact Or.inr (ih (i + 1) (nid + 1) id h)

theorem test5Loop_createOp_not_released (iterations r : Nat) :
    ∀ i nid id, Event.create id Origin.createOp ∈ (test5Loop iterations r i nid).1 →
      Event.release id ∉ (test5Loop iterations r i nid).1 := by
  induction r with
  | zero => intro i nid id h; simp [test5Loop] at h
  | succ m ih =>
    intro i nid id h hrel
    by_cases hi : i % 500 = 0
    · rw [test5Loop_succ_pos iterations m i nid hi] at h hrel
      simp only [List.mem_cons, List.mem_append] at h hrel
      rcases h with h | h | h
      · injection h with hid _
        rcases hrel with hrel | hrel | hrel
        · exact Event.noConfusion hrel
        · have := openEvents_id_lb iterations (nid + 1) _ hrel
          simp only [Event.idOf] at this
          omega
        · have := test5Loop_id_lb iterations m (i + 1) (nid + 1 + iterations) _ hrel
          simp only [Event.idOf] at this
          omega
      · exact Origin.noConfusion (openEvents_create_origin iterations (nid + 1) id _ h)
      · have hlb := test5Loop_id_lb iterations m (i + 1) (nid + 1 + iterations) _ h
        simp only [Event.idOf] at hlb
        rcases hrel with hrel | hrel | hrel
        · exact Event.noConfusion hrel
        · have hub := openEvents_id_ub iterations (nid + 1) _ hrel
          simp only [Event.idOf] at hub
          omega
        · exact ih (i + 1) (nid + 1 + iterations) id h hrel
    · rw [test5Loop_succ_neg iterations m i nid hi] at h hrel
      simp only [List.mem_cons] at h hrel
      rcases h with h | h
      · injection h with hid _
        rcases hrel with hrel | hrel
        · exact Event.noConfusion hrel
        · have := test5Loop_id_lb iterations m (i + 1) (nid + 1) _ hrel
          simp only [Event.idOf] at this
          omega
      · have hlb := test5Loop_id_lb iterations m (i + 1) (nid + 1) _ h
        simp only [Event.idOf] at hlb
        rcases hrel with hrel | hrel
        · exact Event.noConfusion hrel
        · exact ih (i + 1) (nid + 1) id h hrel

theorem test5Loop_createOp_retained (iterations r : Nat) :
    ∀ i nid id, Event.create id Origin.createOp ∈ (test5Loop iterations r i nid).1 →
      id ∈ (test5Loop iterations r i nid).2 := by
  induction r with
  | zero => intro i nid id h; simp [test5Loop] at h
  | succ m ih =>
    intro i nid id h
    by_cases hi : i % 500 = 0
    · rw [test5Loop_succ_pos iterations m i nid hi] at h ⊢
      simp only [List.mem_cons, List.mem_append] at h ⊢
      rcases h with h | h | h
      · injection h with hid _
        exact Or.inl hid
      · exact Origin.noConfusion (openEvents_create_origin iterations (nid + 1) id _ h)
      · exact Or.inr (ih (i + 1) (nid + 1 + iterations) id h)
    · rw [test5Loop_succ_neg iterations m i nid hi] at h ⊢
      simp only [List.mem_cons] at h ⊢
      rcases h with h | h
      · injection h with hid _
        exact Or.inl hid
      · exact Or.inr (ih (i + 1) (nid + 1) id h)

/-- C2 counterexample: scenario 5 releases Resource Handles mid-scenario.
Already with `collision_count = 1` and `iterations = 1` the timed
measurement loop's `OpenDirectory` temporary (identifier `2`) is created
and then released inside the scenario body, before the scenario's scope
ends — so not every handle created during the scenario is retained until
the scenario completes. -/
theorem test5_mid_scenario_release_cex :
    ¬noMidScenarioRelease (test5Body 1 1) := by
  decide

/-- C2 (amended): during scenario 5, every Resource Handle produced by a
`CreateDirectory` call is retained (in the `dirs` vector, or `base_dir` as
a local) and is never released before the scenario's scope ends — its
release happens exactly at scope exit; the only handles released
mid-scenario are the temporaries returned by the timed `OpenDirectory`
calls of the measurement loop, which are discarded immediately. -/
theorem test5_create_handles_retained (collision_count iterations : Nat) :
    (∀ id, Event.release id ∈ test5Body collision_count iterations →
      Event.create id Origin.openOp ∈ test5Body collision_count iterations) ∧
    (∀ id, Event.create id Origin.createOp ∈ test5Body collision_count iterations →
      Event.release id ∉ test5Body collision_count iterations ∧
      Event.release id ∈ test5ScopeExit collision_count iterations) := by
  constructor
  · intro id h
    rw [test5Body, List.mem_cons] at h ⊢
    rcases h with h | h
    · exact Event.noConfusion h
    · exact Or.inr (test5Loop_release_from_open iterations collision_count 0 1 id h)
  · intro id h
    rw [test5Body, List.mem_cons] at h
    constructor
    · intro hrel
      rw [test5Body, List.mem_cons] at hrel
      rcases hrel with hrel | hrel
      · exact Event.noConfusion hrel
      · rcases h with h | h
        · injection h with hid _
          subst hid
          have := test5Loop_id_lb iterations collision_count 0 1 _ hrel
          simp only [Event.idOf] at this
          omega
        · exact test5Loop_createOp_not_released iterations collision_count 0 1 id h hrel
    · rw [test5ScopeExit, List.mem_append]
      rcases h with h | h
      · injection h with hid _
        subst hid
        exact Or.inr (List.mem_singleton.mpr rfl)
      · exact Or.inl (List.mem_map.mpr
          ⟨id, test5Loop_createOp_retained iterations collision_count 0 1 id h, rfl⟩)

theorem test5_create_handles_retained_witness :
    Event.create 2 Origin.openOp ∈ test5Body 1 1 ∧
    (Event.release 1 ∉ test5Body 1 1 ∧ Event.release 1 ∈ test5ScopeExit 1 1) :=
  ⟨(test5_create_handles_retained 1 1).1 2 (by decide),
   (test5_create_handles_retained 1 1).2 1 (by decide)⟩

end ObjectNameLookup
